import Mathlib

/-
Verification of the thread-local, mark-scoped error posting mechanism
documented in pxr/base/tf/errorOverview.dox, and of the mpl2 compatibility
shim in pxr/external/boost/python/detail/mpl2/not.hpp.

The repository ships only the documentation page for the TfError system
(errorOverview.dox); the implementation itself is not part of the provided
sources.  The definitions below are therefore modelled from the written
specification of that system: per-thread error lists, mark windows,
reporting-sink dispatch with observer delegates, the crash-log buffer, and
cross-thread transport.
-/

set_option maxHeartbeats 1000000

namespace TfErrorModel

/-- Modelled from the spec: the source location (file, line, function)
attached to an ErrorRecord at the post call. -/
structure Location where
  file : String
  line : Nat
  func : String
deriving DecidableEq

/-- Modelled from the spec: the opaque typed contextual payload carried by an
error, as a type-tagged container (the tag stands for the C++ type held). -/
structure Payload where
  ty : Nat
  val : Nat
deriving DecidableEq

/-- Modelled from the spec: one posted error occurrence: code, message,
optional payload, source location, originating thread id and per-thread
sequence number. -/
structure ErrorRecord where
  code : Nat
  msg : String
  info : Option Payload
  loc : Location
  tid : Nat
  seq : Nat
deriving DecidableEq

/-- Modelled from the spec: TfError::GetInfo, the checked payload accessor:
it yields the held value exactly when the record holds a payload of exactly
the requested type tag, and fails otherwise (never coerces). -/
def getInfo (r : ErrorRecord) (ty : Nat) : Option Nat :=
  match r.info with
  | none => none
  | some p => if p.ty = ty then some p.val else none

/-- Modelled from the spec: the per-thread state: the ordered pending-error
list, the stack of active mark set points (head = innermost), and the
monotone per-thread sequence counter. -/
structure ThreadState where
  list : List ErrorRecord
  marks : List Nat
  nextSeq : Nat

/-- Modelled from the spec: a freshly created thread owns an empty error
list, no active marks, and sequence counter zero. -/
def ThreadState.init : ThreadState := ⟨[], [], 0⟩

/-- Modelled from the spec: the whole-process state: the per-thread table,
the log of Report calls made on the ReportingSink, the registered observer
delegates and the log of their invocations, the default output stream, the
CrashLogBuffer, and the code-description registry. -/
structure SysState where
  threads : Nat → ThreadState
  reported : List ErrorRecord
  observers : List Nat
  observerCalls : List (Nat × ErrorRecord)
  stream : List String
  crashLog : List ErrorRecord
  registry : Nat → String

/-- Replace one thread's state in the per-thread table. -/
def setThread (s : SysState) (t : Nat) (ts : ThreadState) : SysState :=
  { s with threads := fun u => if u = t then ts else s.threads u }

/-- Modelled from the spec: the human-readable rendering of a record (code
description, message, and location) written to the default stream. -/
def render (s : SysState) (r : ErrorRecord) : String :=
  s.registry r.code ++ ": " ++ r.msg ++ " [" ++ r.loc.file ++ ":" ++
    toString r.loc.line ++ " " ++ r.loc.func ++ "]"

/-- Modelled from the spec: ReportingSink dispatch.  Every registered
observer delegate receives the record, in registration order; when no
delegates are registered the rendering goes to the default stream. -/
def reportRecord (s : SysState) (r : ErrorRecord) : SysState :=
  { s with
    reported := s.reported ++ [r]
    observerCalls := s.observerCalls ++ s.observers.map (fun d => (d, r))
    stream := if s.observers.isEmpty then s.stream ++ [render s r] else s.stream }

/-- Report a batch of records to the sink, in list order. -/
def reportMany (s : SysState) (l : List ErrorRecord) : SysState :=
  l.foldl reportRecord s

/-- Modelled from the spec: Post.  A fresh record takes the calling thread's
current sequence number.  With no mark active on the thread it goes straight
to the ReportingSink; otherwise it is appended to the thread's error list and
mirrored into the CrashLogBuffer. -/
def post (t code : Nat) (msg : String) (info : Option Payload)
    (loc : Location) (s : SysState) : SysState :=
  let ts := s.threads t
  let r : ErrorRecord := ⟨code, msg, info, loc, t, ts.nextSeq⟩
  if ts.marks.isEmpty then
    reportRecord (setThread s t { ts with nextSeq := ts.nextSeq + 1 }) r
  else
    setThread { s with crashLog := s.crashLog ++ [r] } t
      { ts with list := ts.list ++ [r], nextSeq := ts.nextSeq + 1 }

/-- Modelled from the spec: constructing a Mark records the current tail of
the thread's list as the mark's set point and pushes it on the mark stack. -/
def setMark (t : Nat) (s : SysState) : SysState :=
  let ts := s.threads t
  setThread s t { ts with marks := ts.list.length :: ts.marks }

/-- Modelled from the spec: Clear on the innermost mark removes the records
in its window [set point, tail) from the thread list, leaving the rest. -/
def clearMark (t : Nat) (s : SysState) : SysState :=
  let ts := s.threads t
  match ts.marks with
  | [] => s
  | p :: _ => setThread s t { ts with list := ts.list.take p }

/-- Modelled from the spec: destroying the innermost mark pops it; when it
was the last active mark on the thread, every record still present is flushed
to the ReportingSink in order and its entry leaves the CrashLogBuffer. -/
def destroyMark (t : Nat) (s : SysState) : SysState :=
  let ts := s.threads t
  match ts.marks with
  | [] => s
  | _ :: rest =>
    if rest.isEmpty then
      let pending := ts.list
      let s1 := setThread s t { ts with list := [], marks := [] }
      let s2 := { s1 with
        crashLog := s1.crashLog.filter
          (fun e => !(pending.any (fun r => r.tid == e.tid && r.seq == e.seq))) }
      reportMany s2 pending
    else
      setThread s t { ts with marks := rest }

/-- Modelled from the spec: the window a mark with set point p sees: the
slice of the thread list from the set point to the current tail.  This is
what iterating the mark produces, in order. -/
def markWindow (ts : ThreadState) (p : Nat) : List ErrorRecord :=
  ts.list.drop p

/-- Modelled from the spec: IsClean: true iff no record remains in the
window, i.e. the list has not grown past the set point (inner clears
truncate the list back). -/
def isClean (ts : ThreadState) (p : Nat) : Bool :=
  decide (ts.list.length ≤ p)

/-- Modelled from the spec: constructing a transport consumes the source
thread's current innermost window: those records leave the source list and
travel with the transport object. -/
def transportCreate (t : Nat) (s : SysState) : SysState × List ErrorRecord :=
  let ts := s.threads t
  let p := ts.marks.headD 0
  (setThread s t { ts with list := ts.list.take p }, ts.list.drop p)

/-- Modelled from the spec: submitting a transport on the target thread
appends the carried records (unchanged, keeping their original thread ids and
sequence numbers) to the target list when a mark is active there, and
otherwise reports them immediately. -/
def transportSubmit (t : Nat) (carried : List ErrorRecord) (s : SysState) : SysState :=
  let ts := s.threads t
  if ts.marks.isEmpty then reportMany s carried
  else
    setThread { s with crashLog := s.crashLog ++ carried } t
      { ts with list := ts.list ++ carried }

/-- Modelled from the spec: Post must never fail; when internal bookkeeping
fails the record's rendering degrades to stderr-equivalent output on the
default stream instead of crashing or losing the error.  The boolean models
whether the internal bookkeeping succeeds. -/
def postSafe (bookkeepingOk : Bool) (t code : Nat) (msg : String)
    (info : Option Payload) (loc : Location) (s : SysState) : SysState :=
  if bookkeepingOk then post t code msg info loc s
  else
    { s with stream := s.stream ++
        [render s ⟨code, msg, info, loc, t, (s.threads t).nextSeq⟩] }

/-- Arguments of one Post call (thread fixed separately). -/
structure PostCall where
  code : Nat
  msg : String
  info : Option Payload
  loc : Location
deriving DecidableEq

/-- Run a sequence of Post calls on one thread, in order. -/
def postMany (t : Nat) (args : List PostCall) (s : SysState) : SysState :=
  args.foldl (fun s1 a => post t a.code a.msg a.info a.loc s1) s

/-- The records a sequence of Post calls on thread t creates, starting at
sequence number q0. -/
def recordsFor (t q0 : Nat) : List PostCall → List ErrorRecord
  | [] => []
  | a :: rest => ⟨a.code, a.msg, a.info, a.loc, t, q0⟩ :: recordsFor t (q0 + 1) rest

/-- One operation of the error system, for whole-trace statements. -/
inductive Op where
  | post (t code : Nat) (msg : String) (info : Option Payload) (loc : Location)
  | setMark (t : Nat)
  | clear (t : Nat)
  | destroyMark (t : Nat)
  | transport (src dst : Nat)
  | addObserver (d : Nat)

/-- Step the system by one operation. -/
def step (s : SysState) : Op → SysState
  | .post t c m i l => post t c m i l s
  | .setMark t => setMark t s
  | .clear t => clearMark t s
  | .destroyMark t => destroyMark t s
  | .transport a b =>
      let pr := transportCreate a s
      transportSubmit b pr.2 pr.1
  | .addObserver d => { s with observers := s.observers ++ [d] }

/-- Run a trace of operations from a state. -/
def run (s : SysState) (ops : List Op) : SysState :=
  ops.foldl step s

/-- Does a record carry the given identity (thread id, sequence number)? -/
def hasId (t q : Nat) (r : ErrorRecord) : Bool :=
  r.tid == t && r.seq == q

/-- The identity (t, q) occurs nowhere in the system: in no thread's pending
list, not among the reported records, and it is already below thread t's
sequence counter, so no future post can mint it again. -/
def idAbsent (s : SysState) (t q : Nat) : Prop :=
  (∀ u, (s.threads u).list.all (fun r => !(hasId t q r)) = true)
  ∧ s.reported.all (fun r => !(hasId t q r)) = true
  ∧ q < (s.threads t).nextSeq

end TfErrorModel

namespace Mpl2

/-- A C++ type trait exposing a static boolean member value, as in
std::integral_constant. -/
structure TypeTrait where
  value : Bool
deriving DecidableEq

/-- std::negation: the trait whose value is the boolean negation of the
argument trait's value. -/
def std_negation (F : TypeTrait) : TypeTrait := ⟨!F.value⟩

/-- From pxr/external/boost/python/detail/mpl2/not.hpp: the alias
template not_ is exactly std::negation. -/
def not_ (F : TypeTrait) : TypeTrait := std_negation F

end Mpl2

namespace TfErrorModel

theorem setThread_threads_same (s : SysState) (t : Nat) (ts : ThreadState) :
    (setThread s t ts).threads t = ts := by
  simp [setThread]

theorem setThread_threads_other (s : SysState) (t u : Nat) (ts : ThreadState)
    (h : u ≠ t) : (setThread s t ts).threads u = s.threads u := by
  simp [setThread, h]

theorem reportMany_reported (l : List ErrorRecord) (s : SysState) :
    (reportMany s l).reported = s.reported ++ l := by
  induction l generalizing s with
  | nil => simp [reportMany]
  | cons r rest ih =>
      simp only [reportMany, List.foldl_cons] at *
      rw [ih]
      simp [reportRecord]

theorem reportMany_threads (l : List ErrorRecord) (s : SysState) :
    (reportMany s l).threads = s.threads := by
  induction l generalizing s with
  | nil => rfl
  | cons r rest ih =>
      simp only [reportMany, List.foldl_cons] at *
      rw [ih]
      rfl

theorem reportMany_crashLog (l : List ErrorRecord) (s : SysState) :
    (reportMany s l).crashLog = s.crashLog := by
  induction l generalizing s with
  | nil => rfl
  | cons r rest ih =>
      simp only [reportMany, List.foldl_cons] at *
      rw [ih]
      rfl

theorem reportMany_observers (l : List ErrorRecord) (s : SysState) :
    (reportMany s l).observers = s.observers := by
  induction l generalizing s with
  | nil => rfl
  | cons r rest ih =>
      simp only [reportMany, List.foldl_cons] at *
      rw [ih]
      rfl

theorem post_unmarked (t c : Nat) (m : String) (i : Option Payload) (l : Location)
    (s : SysState) (h : (s.threads t).marks = []) :
    post t c m i l s =
      reportRecord
        (setThread s t { s.threads t with nextSeq := (s.threads t).nextSeq + 1 })
        ⟨c, m, i, l, t, (s.threads t).nextSeq⟩ := by
  simp [post, h]

theorem post_marked (t c : Nat) (m : String) (i : Option Payload) (l : Location)
    (s : SysState) (p : Nat) (rest : List Nat) (h : (s.threads t).marks = p :: rest) :
    post t c m i l s =
      setThread
        { s with crashLog := s.crashLog ++ [⟨c, m, i, l, t, (s.threads t).nextSeq⟩] } t
        { s.threads t with
            list := (s.threads t).list ++ [⟨c, m, i, l, t, (s.threads t).nextSeq⟩]
            nextSeq := (s.threads t).nextSeq + 1 } := by
  simp [post, h]

end TfErrorModel

namespace TfErrorModel

theorem post_unmarked_threads (t c : Nat) (m : String) (i : Option Payload)
    (l : Location) (s : SysState) (h : (s.threads t).marks = []) :
    (post t c m i l s).threads t
      = { s.threads t with nextSeq := (s.threads t).nextSeq + 1 } := by
  rw [post_unmarked t c m i l s h]
  show (setThread s t _).threads t = _
  exact setThread_threads_same s t _

theorem post_unmarked_reported (t c : Nat) (m : String) (i : Option Payload)
    (l : Location) (s : SysState) (h : (s.threads t).marks = []) :
    (post t c m i l s).reported
      = s.reported ++ [⟨c, m, i, l, t, (s.threads t).nextSeq⟩] := by
  rw [post_unmarked t c m i l s h]
  rfl

theorem postMany_reported_unmarked (t : Nat) (args : List PostCall) :
    ∀ s : SysState, (s.threads t).marks = [] →
      (postMany t args s).reported
        = s.reported ++ recordsFor t (s.threads t).nextSeq args := by
  induction args with
  | nil => intro s _; simp [postMany, recordsFor]
  | cons a rest ih =>
      intro s h
      have h1 : ((post t a.code a.msg a.info a.loc s).threads t).marks = [] := by
        rw [post_unmarked_threads t a.code a.msg a.info a.loc s h]
        exact h
      simp only [postMany, List.foldl_cons]
      have := ih (post t a.code a.msg a.info a.loc s) h1
      simp only [postMany] at this
      rw [this, post_unmarked_reported t a.code a.msg a.info a.loc s h,
        post_unmarked_threads t a.code a.msg a.info a.loc s h]
      simp [recordsFor]

theorem recordsFor_length (t : Nat) (args : List PostCall) :
    ∀ q0, (recordsFor t q0 args).length = args.length := by
  induction args with
  | nil => intro q0; rfl
  | cons a rest ih => intro q0; simp [recordsFor, ih]

theorem recordsFor_proj (t : Nat) (args : List PostCall) :
    ∀ q0, (recordsFor t q0 args).map (fun r => (r.code, r.msg, r.info))
      = args.map (fun a => (a.code, a.msg, a.info)) := by
  induction args with
  | nil => intro q0; rfl
  | cons a rest ih => intro q0; simp [recordsFor, ih]

/-- C1: while no Mark is active on a thread, every Post call in a sequence
causes exactly one Report call on the ReportingSink, in order, and each
reported record carries the code, message and contextual payload that were
passed to the corresponding Post. -/
theorem posts_without_mark_each_reported (t : Nat) (args : List PostCall)
    (s : SysState) (h : (s.threads t).marks = []) :
    (postMany t args s).reported
        = s.reported ++ recordsFor t ((s.threads t).nextSeq) args
    ∧ (postMany t args s).reported.length = s.reported.length + args.length
    ∧ (recordsFor t ((s.threads t).nextSeq) args).map
        (fun r => (r.code, r.msg, r.info))
      = args.map (fun a => (a.code, a.msg, a.info)) := by
  refine ⟨postMany_reported_unmarked t args s h, ?_, recordsFor_proj t args _⟩
  rw [postMany_reported_unmarked t args s h]
  simp [recordsFor_length]

/-- A sample location for concrete executions. -/
def loc0 : Location := ⟨"matrix.cpp", 42, "op"⟩

/-- A sample process state: no threads have posted, no observers, trivial
code-description registry. -/
def sys0 : SysState :=
  ⟨fun _ => ThreadState.init, [], [], [], [], [], fun _ => "err"⟩

/-- Witness for C1: two posts of code 7 message "boom" on thread 0 of the
fresh state produce exactly two Report calls carrying code 7 and "boom". -/
theorem posts_without_mark_each_reported_witness :
    (postMany 0 [⟨7, "boom", none, loc0⟩, ⟨7, "boom", none, loc0⟩] sys0).reported
        = [⟨7, "boom", none, loc0, 0, 0⟩, ⟨7, "boom", none, loc0, 0, 1⟩]
    ∧ (postMany 0 [⟨7, "boom", none, loc0⟩, ⟨7, "boom", none, loc0⟩]
        sys0).reported.length = 2 := by
  have h := posts_without_mark_each_reported 0
    [⟨7, "boom", none, loc0⟩, ⟨7, "boom", none, loc0⟩] sys0 rfl
  refine ⟨?_, ?_⟩
  · rw [h.1]; rfl
  · rw [h.2.1]; rfl

end TfErrorModel

namespace TfErrorModel

theorem setMark_threads (t : Nat) (s : SysState) :
    (setMark t s).threads t
      = { s.threads t with marks := (s.threads t).list.length :: (s.threads t).marks } := by
  simp [setMark, setThread_threads_same]

theorem post_marked_threads (t c : Nat) (m : String) (i : Option Payload)
    (l : Location) (s : SysState) (p : Nat) (rest : List Nat)
    (h : (s.threads t).marks = p :: rest) :
    (post t c m i l s).threads t
      = { s.threads t with
            list := (s.threads t).list ++ [⟨c, m, i, l, t, (s.threads t).nextSeq⟩]
            nextSeq := (s.threads t).nextSeq + 1 } := by
  rw [post_marked t c m i l s p rest h]
  exact setThread_threads_same _ t _

/-- C2: IsClean is true exactly when the mark's window holds no record; it is
true immediately after the mark's construction, and false immediately after
any Post on the same thread while that mark is the innermost active one. -/
theorem isClean_iff_window_empty (s : SysState) (t c : Nat) (m : String)
    (i : Option Payload) (l : Location) (p : Nat) (rest : List Nat)
    (hm : (s.threads t).marks = p :: rest) (hp : p ≤ (s.threads t).list.length) :
    (∀ ts : ThreadState, ∀ q : Nat, (isClean ts q = true ↔ markWindow ts q = []))
    ∧ isClean ((setMark t s).threads t)
        (((setMark t s).threads t).marks.headD 0) = true
    ∧ isClean ((post t c m i l s).threads t) p = false := by
  refine ⟨?_, ?_, ?_⟩
  · intro ts q
    simp [isClean, markWindow, List.drop_eq_nil_iff]
  · rw [setMark_threads t s]
    simp [isClean]
  · rw [post_marked_threads t c m i l s p rest hm]
    simp only [isClean, List.length_append, List.length_cons, List.length_nil]
    simp only [decide_eq_false_iff_not]
    omega

/-- Witness for C2: on a thread with one active mark of set point 0,
IsClean is true right after constructing a further mark and false right
after a post. -/
theorem isClean_iff_window_empty_witness :
    isClean ((setMark 0 (setMark 0 sys0)).threads 0)
        (((setMark 0 (setMark 0 sys0)).threads 0).marks.headD 0) = true
    ∧ isClean ((post 0 5 "bad" none loc0 (setMark 0 sys0)).threads 0) 0 = false := by
  have h := isClean_iff_window_empty (setMark 0 sys0) 0 5 "bad" none loc0 0 []
    (by rfl) (by decide)
  exact ⟨h.2.1, h.2.2⟩

end TfErrorModel

namespace TfErrorModel

theorem destroyMark_last (t : Nat) (s : SysState) (p : Nat)
    (hm : (s.threads t).marks = [p]) :
    destroyMark t s =
      reportMany
        { setThread s t { s.threads t with list := [], marks := [] } with
          crashLog := s.crashLog.filter
            (fun e => !((s.threads t).list.any
              (fun r => r.tid == e.tid && r.seq == e.seq))) }
        (s.threads t).list := by
  simp only [destroyMark, hm, List.isEmpty_nil, if_true]
  rfl

/-- C3: destroying the last remaining Mark on a thread whose list holds N
un-cleared records (its window, set point 0) triggers exactly N Report
calls in original post order, empties the thread list, and removes exactly
those entries from the CrashLogBuffer. -/
theorem destroy_last_mark_flushes (s : SysState) (t : Nat)
    (hm : (s.threads t).marks = [0]) :
    (destroyMark t s).reported = s.reported ++ markWindow (s.threads t) 0
    ∧ (destroyMark t s).reported.length
        = s.reported.length + (markWindow (s.threads t) 0).length
    ∧ ((destroyMark t s).threads t).list = []
    ∧ ((destroyMark t s).threads t).marks = []
    ∧ (∀ e : ErrorRecord, e ∈ (destroyMark t s).crashLog ↔
        e ∈ s.crashLog
        ∧ (s.threads t).list.any (fun r => r.tid == e.tid && r.seq == e.seq)
            = false) := by
  rw [destroyMark_last t s 0 hm]
  refine ⟨?_, ?_, ?_, ?_, ?_⟩
  · rw [reportMany_reported]
    simp [markWindow, setThread]
  · rw [reportMany_reported]
    simp [markWindow, setThread]
  · rw [reportMany_threads]
    simp [setThread_threads_same]
  · rw [reportMany_threads]
    simp [setThread_threads_same]
  · intro e
    rw [reportMany_crashLog]
    simp only [List.mem_filter, Bool.not_eq_true']

/-- A state for the C3 witness: one mark opened on a fresh thread 0, then
two posts under it. -/
def sysC3 : SysState :=
  post 0 2 "e2" none loc0 (post 0 1 "e1" none loc0 (setMark 0 sys0))

/-- Witness for C3: destroying the only mark of sysC3 reports its two
pending records and empties the thread list and the crash-log buffer. -/
theorem destroy_last_mark_flushes_witness :
    (destroyMark 0 sysC3).reported.length = 2
    ∧ ((destroyMark 0 sysC3).threads 0).list = []
    ∧ ((⟨1, "e1", none, loc0, 0, 0⟩ : ErrorRecord) ∈ (destroyMark 0 sysC3).crashLog
        ↔ (⟨1, "e1", none, loc0, 0, 0⟩ : ErrorRecord) ∈ sysC3.crashLog
          ∧ (sysC3.threads 0).list.any
              (fun r => r.tid == 0 && r.seq == 0) = false) := by
  have h := destroy_last_mark_flushes sysC3 0 (by rfl)
  refine ⟨?_, h.2.2.1, ?_⟩
  · rw [h.2.1]; rfl
  · exact h.2.2.2.2 ⟨1, "e1", none, loc0, 0, 0⟩

end TfErrorModel

namespace TfErrorModel

theorem all_take {α : Type} (p : α → Bool) (l : List α) (n : Nat)
    (h : l.all p = true) : (l.take n).all p = true := by
  rw [List.all_eq_true] at *
  intro a ha
  exact h a (List.mem_of_mem_take ha)

theorem all_drop {α : Type} (p : α → Bool) (l : List α) (n : Nat)
    (h : l.all p = true) : (l.drop n).all p = true := by
  rw [List.all_eq_true] at *
  intro a ha
  exact h a (List.mem_of_mem_drop ha)

theorem idAbsent_reportRecord (s : SysState) (r : ErrorRecord) (t q : Nat)
    (habs : idAbsent s t q) (hr : hasId t q r = false) :
    idAbsent (reportRecord s r) t q := by
  refine ⟨?_, ?_, ?_⟩
  · intro u
    simpa [reportRecord] using habs.1 u
  · simp [reportRecord, List.all_append, habs.2.1, hr]
  · simpa [reportRecord] using habs.2.2

theorem idAbsent_reportMany (t q : Nat) (l : List ErrorRecord) :
    ∀ s : SysState, idAbsent s t q →
      l.all (fun r => !(hasId t q r)) = true → idAbsent (reportMany s l) t q := by
  induction l with
  | nil => intro s h _; exact h
  | cons r rest ih =>
      intro s h hl
      simp only [List.all_cons, Bool.and_eq_true] at hl
      have hr : hasId t q r = false := by simpa using hl.1
      have h1 : idAbsent (reportRecord s r) t q := idAbsent_reportRecord s r t q h hr
      simp only [reportMany, List.foldl_cons]
      exact ih (reportRecord s r) h1 hl.2

end TfErrorModel

namespace TfErrorModel

theorem setThread_list_all (s : SysState) (t0 : Nat) (ts : ThreadState)
    (p : ErrorRecord → Bool) (hts : ts.list.all p = true)
    (hall : ∀ u, u ≠ t0 → (s.threads u).list.all p = true) :
    ∀ u, ((setThread s t0 ts).threads u).list.all p = true := by
  intro u
  by_cases hu : u = t0
  · subst hu
    rw [setThread_threads_same]
    exact hts
  · rw [setThread_threads_other s t0 u ts hu]
    exact hall u hu

theorem setThread_nextSeq_ge (s : SysState) (t0 : Nat) (ts : ThreadState)
    (t q : Nat) (hq : q < (s.threads t).nextSeq)
    (hge : (s.threads t0).nextSeq ≤ ts.nextSeq) :
    q < ((setThread s t0 ts).threads t).nextSeq := by
  by_cases hu : t = t0
  · subst hu
    rw [setThread_threads_same]
    omega
  · rw [setThread_threads_other s t0 t ts hu]
    exact hq

theorem clearMark_eq (t : Nat) (s : SysState) (p : Nat) (rest : List Nat)
    (h : (s.threads t).marks = p :: rest) :
    clearMark t s
      = setThread s t { s.threads t with list := (s.threads t).list.take p } := by
  simp [clearMark, h]

theorem destroyMark_pop (t : Nat) (s : SysState) (p p2 : Nat) (rest : List Nat)
    (h : (s.threads t).marks = p :: p2 :: rest) :
    destroyMark t s = setThread s t { s.threads t with marks := p2 :: rest } := by
  simp [destroyMark, h]

theorem idAbsent_transportSubmit (t q b : Nat) (carried : List ErrorRecord)
    (s : SysState) (habs : idAbsent s t q)
    (hc : carried.all (fun r => !(hasId t q r)) = true) :
    idAbsent (transportSubmit b carried s) t q := by
  simp only [transportSubmit]
  by_cases hb : ((s.threads b).marks).isEmpty = true
  · rw [if_pos hb]
    exact idAbsent_reportMany t q carried s habs hc
  · rw [if_neg hb]
    refine ⟨?_, habs.2.1, ?_⟩
    · apply setThread_list_all
      · simp [List.all_append, habs.1 b, hc]
      · exact fun v _ => habs.1 v
    · exact setThread_nextSeq_ge _ b _ t q habs.2.2 (Nat.le_refl _)

theorem idAbsent_step (s : SysState) (t q : Nat) (habs : idAbsent s t q) :
    ∀ op : Op, idAbsent (step s op) t q := by
  obtain ⟨hl, hrep, hseq⟩ := habs
  intro op
  cases op with
  | post u c m i l =>
      have hfresh : hasId t q ⟨c, m, i, l, u, (s.threads u).nextSeq⟩ = false := by
        by_cases hu : u = t
        · subst hu
          simp [hasId]
          omega
        · simp [hasId, hu]
      show idAbsent (post u c m i l s) t q
      cases hmarks : (s.threads u).marks with
      | nil =>
          rw [post_unmarked u c m i l s hmarks]
          apply idAbsent_reportRecord _ _ t q _ hfresh
          refine ⟨?_, hrep, ?_⟩
          · exact setThread_list_all s u _ _ (hl u) (fun v _ => hl v)
          · exact setThread_nextSeq_ge s u _ t q hseq (Nat.le_succ _)
      | cons p rest =>
          rw [post_marked u c m i l s p rest hmarks]
          refine ⟨?_, hrep, ?_⟩
          · apply setThread_list_all
            · simp only [List.all_append, Bool.and_eq_true]
              refine ⟨hl u, ?_⟩
              simp [hfresh]
            · exact fun v _ => hl v
          · exact setThread_nextSeq_ge _ u _ t q hseq (Nat.le_succ _)
  | setMark u =>
      show idAbsent (setMark u s) t q
      simp only [setMark]
      refine ⟨?_, hrep, ?_⟩
      · exact setThread_list_all s u _ _ (hl u) (fun v _ => hl v)
      · exact setThread_nextSeq_ge s u _ t q hseq (Nat.le_refl _)
  | clear u =>
      show idAbsent (clearMark u s) t q
      cases hmarks : (s.threads u).marks with
      | nil => exact ⟨by simpa [clearMark, hmarks] using hl, by simpa [clearMark, hmarks] using hrep, by simpa [clearMark, hmarks] using hseq⟩
      | cons p rest =>
          rw [clearMark_eq u s p rest hmarks]
          refine ⟨?_, hrep, ?_⟩
          · exact setThread_list_all s u _ _ (all_take _ _ p (hl u)) (fun v _ => hl v)
          · exact setThread_nextSeq_ge s u _ t q hseq (Nat.le_refl _)
  | destroyMark u =>
      show idAbsent (destroyMark u s) t q
      cases hmarks : (s.threads u).marks with
      | nil => exact ⟨by simpa [destroyMark, hmarks] using hl, by simpa [destroyMark, hmarks] using hrep, by simpa [destroyMark, hmarks] using hseq⟩
      | cons p rest =>
          cases rest with
          | nil =>
              rw [destroyMark_last u s p hmarks]
              apply idAbsent_reportMany t q _ _ _ (hl u)
              refine ⟨?_, hrep, ?_⟩
              · exact setThread_list_all s u _ _ (by simp) (fun v _ => hl v)
              · exact setThread_nextSeq_ge s u _ t q hseq (Nat.le_refl _)
          | cons p2 rest2 =>
              rw [destroyMark_pop u s p p2 rest2 hmarks]
              refine ⟨?_, hrep, ?_⟩
              · exact setThread_list_all s u _ _ (hl u) (fun v _ => hl v)
              · exact setThread_nextSeq_ge s u _ t q hseq (Nat.le_refl _)
  | transport a b =>
      show idAbsent
        (transportSubmit b (transportCreate a s).2 (transportCreate a s).1) t q
      apply idAbsent_transportSubmit
      · refine ⟨?_, hrep, ?_⟩
        · exact setThread_list_all s a _ _ (all_take _ _ _ (hl a)) (fun v _ => hl v)
        · exact setThread_nextSeq_ge s a _ t q hseq (Nat.le_refl _)
      · exact all_drop _ _ _ (hl a)
  | addObserver d =>
      exact ⟨hl, hrep, hseq⟩

theorem idAbsent_run (t q : Nat) (ops : List Op) :
    ∀ s : SysState, idAbsent s t q → idAbsent (run s ops) t q := by
  induction ops with
  | nil => intro s h; exact h
  | cons op rest ih =>
      intro s h
      simp only [run, List.foldl_cons]
      exact ih (step s op) (idAbsent_step s t q h op)

end TfErrorModel

namespace TfErrorModel

theorem hasId_self (r : ErrorRecord) : hasId r.tid r.seq r = true := by
  simp [hasId]

/-- C4: Clear removes exactly the records in the mark's window from the
thread list, leaves every record outside the window (and every other thread)
in place, resets the window to empty, and a removed record is never delivered
to the ReportingSink afterwards, whatever operations (including later mark
destructions) follow. -/
theorem clear_removes_window_never_reported (s : SysState) (t p : Nat)
    (rest : List Nat) (r : ErrorRecord) (ops : List Op)
    (hm : (s.threads t).marks = p :: rest)
    (hr : r ∈ (s.threads t).list.drop p)
    (hcount : (s.threads t).list.countP (hasId r.tid r.seq) = 1)
    (hother : ∀ u, u ≠ t →
      (s.threads u).list.all (fun x => !(hasId r.tid r.seq x)) = true)
    (hrep : s.reported.all (fun x => !(hasId r.tid r.seq x)) = true)
    (hseq : r.seq < (s.threads r.tid).nextSeq) :
    ((clearMark t s).threads t).list = (s.threads t).list.take p
    ∧ isClean ((clearMark t s).threads t) p = true
    ∧ (∀ u, u ≠ t → (clearMark t s).threads u = s.threads u)
    ∧ (clearMark t s).reported = s.reported
    ∧ (run (clearMark t s) ops).reported.all
        (fun x => !(hasId r.tid r.seq x)) = true := by
  have hsplit : ((s.threads t).list.take p).countP (hasId r.tid r.seq)
      + ((s.threads t).list.drop p).countP (hasId r.tid r.seq) = 1 := by
    rw [← List.countP_append, List.take_append_drop]
    exact hcount
  have hdrop_pos : 0 < ((s.threads t).list.drop p).countP (hasId r.tid r.seq) :=
    List.countP_pos_iff.mpr ⟨r, hr, hasId_self r⟩
  have htake0 : ((s.threads t).list.take p).countP (hasId r.tid r.seq) = 0 := by
    omega
  have htakeall : ((s.threads t).list.take p).all
      (fun x => !(hasId r.tid r.seq x)) = true := by
    rw [List.all_eq_true]
    intro x hx
    have hx0 := List.countP_eq_zero.mp htake0 x hx
    simpa using hx0
  have habs : idAbsent (clearMark t s) r.tid r.seq := by
    rw [clearMark_eq t s p rest hm]
    refine ⟨?_, hrep, ?_⟩
    · apply setThread_list_all s t _ _ htakeall
      intro u hu
      exact hother u hu
    · exact setThread_nextSeq_ge s t _ r.tid r.seq hseq (Nat.le_refl _)
  refine ⟨?_, ?_, ?_, ?_, ?_⟩
  · rw [clearMark_eq t s p rest hm, setThread_threads_same]
  · rw [clearMark_eq t s p rest hm, setThread_threads_same]
    simp only [isClean, List.length_take, decide_eq_true_eq]
    omega
  · intro u hu
    rw [clearMark_eq t s p rest hm]
    exact setThread_threads_other s t u _ hu
  · rw [clearMark_eq t s p rest hm]
    rfl
  · exact (idAbsent_run r.tid r.seq ops (clearMark t s) habs).2.1

end TfErrorModel

namespace TfErrorModel

/-- A state for the C4 witness: one mark opened on thread 0, then one post
of code 3 under it. -/
def sysC4 : SysState := post 0 3 "y" none loc0 (setMark 0 sys0)

/-- The record pending in sysC4. -/
def recC4 : ErrorRecord := ⟨3, "y", none, loc0, 0, 0⟩

/-- Witness for C4: clearing the mark of sysC4 empties the thread list and
the cleared record is not reported even when the mark is destroyed next. -/
theorem clear_removes_window_never_reported_witness :
    ((clearMark 0 sysC4).threads 0).list = []
    ∧ (run (clearMark 0 sysC4) [Op.destroyMark 0]).reported.all
        (fun x => !(hasId recC4.tid recC4.seq x)) = true := by
  have h := clear_removes_window_never_reported sysC4 0 0 [] recC4
    [Op.destroyMark 0] (by rfl) (by decide) (by decide)
    (by
      intro u hu
      have hth : sysC4.threads u = ThreadState.init := by
        simp [sysC4, post, setMark, setThread, sys0, hu]
      rw [hth]
      rfl)
    (by decide) (by decide)
  refine ⟨?_, h.2.2.2.2⟩
  rw [h.1]
  rfl

end TfErrorModel

namespace TfErrorModel

theorem countP_eq_zero_of_all_not {α : Type} (p : α → Bool) (l : List α)
    (h : l.all (fun x => !(p x)) = true) : l.countP p = 0 := by
  rw [List.countP_eq_zero]
  rw [List.all_eq_true] at h
  intro a ha
  have ha2 := h a ha
  simp only [Bool.not_eq_true'] at ha2
  simp [ha2]

/-- C5: a record posted while an inner mark of a nested pair is innermost is
not reported when the inner mark is destroyed uncleared; it becomes part of
the enclosing mark's window, and it is reported exactly once when the
outermost mark is destroyed uncleared. -/
theorem nested_marks_defer_report (s : SysState) (t c : Nat) (m : String)
    (i : Option Payload) (l : Location) (p1 p2 : Nat)
    (hm : (s.threads t).marks = [p2, p1])
    (hp1 : p1 ≤ (s.threads t).list.length)
    (hlist : (s.threads t).list.all
      (fun x => !(hasId t (s.threads t).nextSeq x)) = true)
    (hrep : s.reported.all
      (fun x => !(hasId t (s.threads t).nextSeq x)) = true) :
    (destroyMark t (post t c m i l s)).reported = s.reported
    ∧ ((destroyMark t (post t c m i l s)).threads t).marks = [p1]
    ∧ (⟨c, m, i, l, t, (s.threads t).nextSeq⟩ : ErrorRecord)
        ∈ markWindow ((destroyMark t (post t c m i l s)).threads t) p1
    ∧ (destroyMark t (destroyMark t (post t c m i l s))).reported.countP
        (hasId t (s.threads t).nextSeq) = 1 := by
  have hts1 : (post t c m i l s).threads t
      = { s.threads t with
            list := (s.threads t).list ++ [⟨c, m, i, l, t, (s.threads t).nextSeq⟩]
            nextSeq := (s.threads t).nextSeq + 1 } :=
    post_marked_threads t c m i l s p2 [p1] hm
  have hm1 : ((post t c m i l s).threads t).marks = p2 :: p1 :: [] := by
    rw [hts1]
    exact hm
  have hd2 : destroyMark t (post t c m i l s)
      = setThread (post t c m i l s) t
          { (post t c m i l s).threads t with marks := p1 :: [] } :=
    destroyMark_pop t _ p2 p1 [] hm1
  have hrep1 : (destroyMark t (post t c m i l s)).reported = s.reported := by
    rw [hd2, post_marked t c m i l s p2 [p1] hm]
    rfl
  have hts2 : (destroyMark t (post t c m i l s)).threads t
      = { (post t c m i l s).threads t with marks := p1 :: [] } := by
    rw [hd2]
    exact setThread_threads_same _ t _
  have hm2 : ((destroyMark t (post t c m i l s)).threads t).marks = [p1] := by
    rw [hts2]
  have hlist2 : ((destroyMark t (post t c m i l s)).threads t).list
      = (s.threads t).list ++ [⟨c, m, i, l, t, (s.threads t).nextSeq⟩] := by
    rw [hts2, hts1]
  refine ⟨hrep1, hm2, ?_, ?_⟩
  · simp only [markWindow, hlist2]
    rw [List.drop_append_of_le_length hp1]
    exact List.mem_append_right _ (List.mem_singleton.mpr rfl)
  · rw [destroyMark_last t _ p1 hm2, reportMany_reported, hlist2]
    have hb : ({ setThread (destroyMark t (post t c m i l s)) t
        { (destroyMark t (post t c m i l s)).threads t with
            list := [], marks := [] } with
        crashLog := (destroyMark t (post t c m i l s)).crashLog.filter
          (fun e => !(((destroyMark t (post t c m i l s)).threads t).list.any
            (fun x => x.tid == e.tid && x.seq == e.seq))) }).reported
        = s.reported := by
      rw [← hrep1]
      rfl
    rw [hb, List.countP_append, List.countP_append,
      countP_eq_zero_of_all_not _ _ hrep, countP_eq_zero_of_all_not _ _ hlist]
    simp [hasId]

/-- Witness for C5: two nested marks on thread 0, one post of code 9 under
the inner one; destroying the inner mark reports nothing, destroying the
outer one reports that record exactly once. -/
theorem nested_marks_defer_report_witness :
    (destroyMark 0 (post 0 9 "z" none loc0 (setMark 0 (setMark 0 sys0)))).reported
        = []
    ∧ (destroyMark 0 (destroyMark 0
        (post 0 9 "z" none loc0 (setMark 0 (setMark 0 sys0))))).reported.countP
          (hasId 0 0) = 1 := by
  have h := nested_marks_defer_report (setMark 0 (setMark 0 sys0)) 0 9 "z"
    none loc0 0 0 (by rfl) (by decide) (by rfl) (by rfl)
  refine ⟨?_, h.2.2.2⟩
  rw [h.1]
  rfl

end TfErrorModel

namespace TfErrorModel

theorem transportSubmit_marked (t : Nat) (carried : List ErrorRecord)
    (s : SysState) (p : Nat) (rest : List Nat)
    (h : (s.threads t).marks = p :: rest) :
    transportSubmit t carried s
      = setThread { s with crashLog := s.crashLog ++ carried } t
          { s.threads t with list := (s.threads t).list ++ carried } := by
  simp [transportSubmit, h]

theorem transportCreate_snd (t : Nat) (s : SysState) :
    (transportCreate t s).2
      = (s.threads t).list.drop ((s.threads t).marks.headD 0) := rfl

theorem transportCreate_fst_threads (t : Nat) (s : SysState) :
    ((transportCreate t s).1).threads t
      = { s.threads t with
          list := (s.threads t).list.take ((s.threads t).marks.headD 0) } :=
  setThread_threads_same _ t _

/-- C6: transporting the window of K records from thread A to thread B and
submitting under an active mark on B leaves B's mark iterating its own
records followed by exactly those K records, removes them from A's list, and
each transported record is the identical record (same thread id and sequence
number) now held by B's list and absent from A's. -/
theorem transport_moves_window (s : SysState) (a b pB : Nat)
    (restB : List Nat) (hab : a ≠ b)
    (hmB : (s.threads b).marks = pB :: restB)
    (hpB : pB ≤ (s.threads b).list.length)
    (hnd : (s.threads a).list.Nodup) :
    (transportCreate a s).2
        = markWindow (s.threads a) ((s.threads a).marks.headD 0)
    ∧ ((transportSubmit b (transportCreate a s).2
          (transportCreate a s).1).threads a).list
        = (s.threads a).list.take ((s.threads a).marks.headD 0)
    ∧ markWindow ((transportSubmit b (transportCreate a s).2
          (transportCreate a s).1).threads b) pB
        = markWindow (s.threads b) pB ++ (transportCreate a s).2
    ∧ (∀ r ∈ (transportCreate a s).2,
        r ∈ ((transportSubmit b (transportCreate a s).2
              (transportCreate a s).1).threads b).list
        ∧ r ∈ (s.threads a).list
        ∧ r ∉ ((transportSubmit b (transportCreate a s).2
              (transportCreate a s).1).threads a).list) := by
  have hba : b ≠ a := Ne.symm hab
  have hs1b : ((transportCreate a s).1).threads b = s.threads b :=
    setThread_threads_other s a b _ hba
  have hmB1 : (((transportCreate a s).1).threads b).marks = pB :: restB := by
    rw [hs1b]
    exact hmB
  have hsub : transportSubmit b (transportCreate a s).2 (transportCreate a s).1
      = setThread
          { (transportCreate a s).1 with
            crashLog := ((transportCreate a s).1).crashLog
              ++ (transportCreate a s).2 } b
          { ((transportCreate a s).1).threads b with
            list := (((transportCreate a s).1).threads b).list
              ++ (transportCreate a s).2 } :=
    transportSubmit_marked b _ _ pB restB hmB1
  have hta : ((transportSubmit b (transportCreate a s).2
        (transportCreate a s).1).threads a).list
      = (s.threads a).list.take ((s.threads a).marks.headD 0) := by
    rw [hsub, setThread_threads_other _ b a _ hab]
    show (((transportCreate a s).1).threads a).list = _
    rw [transportCreate_fst_threads]
  have htb : ((transportSubmit b (transportCreate a s).2
        (transportCreate a s).1).threads b).list
      = (s.threads b).list ++ (transportCreate a s).2 := by
    rw [hsub, setThread_threads_same]
    show ((((transportCreate a s).1).threads b).list ++ _) = _
    rw [hs1b]
  refine ⟨rfl, hta, ?_, ?_⟩
  · simp only [markWindow, htb]
    rw [List.drop_append_of_le_length hpB]
  · intro r hr
    have hrdrop : r ∈ (s.threads a).list.drop ((s.threads a).marks.headD 0) := hr
    refine ⟨?_, List.mem_of_mem_drop hrdrop, ?_⟩
    · rw [htb]
      exact List.mem_append_right _ hr
    · rw [hta]
      intro hrtake
      exact List.disjoint_take_drop hnd (Nat.le_refl _) hrtake hrdrop

/-- A state for the C6 witness: thread 0 holds one record under a mark,
thread 1 has an active mark and an empty list. -/
def sysC6 : SysState := setMark 1 (post 0 4 "a" none loc0 (setMark 0 sys0))

/-- Witness for C6: transporting thread 0's window to thread 1 empties
thread 0's list and the record, with its original thread id 0 and sequence
number 0, is now in thread 1's list. -/
theorem transport_moves_window_witness :
    ((transportSubmit 1 (transportCreate 0 sysC6).2
        (transportCreate 0 sysC6).1).threads 0).list = []
    ∧ (⟨4, "a", none, loc0, 0, 0⟩ : ErrorRecord)
        ∈ ((transportSubmit 1 (transportCreate 0 sysC6).2
            (transportCreate 0 sysC6).1).threads 1).list := by
  have h := transport_moves_window sysC6 0 1 0 [] (by decide) (by decide)
    (by decide) (by decide)
  refine ⟨?_, ?_⟩
  · rw [h.2.1]
    rfl
  · have hr : (⟨4, "a", none, loc0, 0, 0⟩ : ErrorRecord)
        ∈ (transportCreate 0 sysC6).2 := by decide
    exact (h.2.2.2 _ hr).1

end TfErrorModel

namespace TfErrorModel

/-- C7: every record that reaches Report is delivered to every registered
observer delegate, in registration order, and no delegate can suppress
delivery to the later ones; with no delegates registered, the record's
rendering (code description, message, location) goes to the default
stream instead. -/
theorem report_dispatches_to_all_observers (s : SysState) (r : ErrorRecord) :
    (reportRecord s r).observerCalls
        = s.observerCalls ++ s.observers.map (fun d => (d, r))
    ∧ (∀ d ∈ s.observers, (d, r) ∈ (reportRecord s r).observerCalls)
    ∧ (s.observers = [] →
        (reportRecord s r).stream = s.stream ++ [render s r])
    ∧ (s.observers ≠ [] → (reportRecord s r).stream = s.stream) := by
  refine ⟨rfl, ?_, ?_, ?_⟩
  · intro d hd
    show (d, r) ∈ s.observerCalls ++ s.observers.map (fun d => (d, r))
    exact List.mem_append_right _ (List.mem_map.mpr ⟨d, hd, rfl⟩)
  · intro h
    simp [reportRecord, h]
  · intro h
    cases hobs : s.observers with
    | nil => exact absurd hobs h
    | cons d rest => simp [reportRecord, hobs]

/-- The C7 witness state: like sys0 but with observer delegates 5 and 6
registered, in that order. -/
def sysObs : SysState := { sys0 with observers := [5, 6] }

/-- Witness for C7: reporting a record with observers 5 and 6 registered
invokes both in order; with none registered, its rendering goes to the
default stream. -/
theorem report_dispatches_to_all_observers_witness :
    (reportRecord sysObs ⟨1, "w", none, loc0, 0, 0⟩).observerCalls
        = [(5, ⟨1, "w", none, loc0, 0, 0⟩), (6, ⟨1, "w", none, loc0, 0, 0⟩)]
    ∧ (reportRecord sys0 ⟨1, "w", none, loc0, 0, 0⟩).stream
        = sys0.stream ++ [render sys0 ⟨1, "w", none, loc0, 0, 0⟩] := by
  have h1 := report_dispatches_to_all_observers sysObs ⟨1, "w", none, loc0, 0, 0⟩
  have h2 := report_dispatches_to_all_observers sys0 ⟨1, "w", none, loc0, 0, 0⟩
  refine ⟨?_, h2.2.2.1 rfl⟩
  rw [h1.1]
  rfl

/-- C8: Post never fails: for every input postSafe yields a successor state;
with working bookkeeping it behaves as Post, which never drops the record
(it lands in the report log or in the thread list), and when internal
bookkeeping fails the record's rendering degrades to the default stream
rather than being lost. -/
theorem post_never_fails (b : Bool) (t c : Nat) (m : String)
    (i : Option Payload) (l : Location) (s : SysState) :
    (b = true → postSafe b t c m i l s = post t c m i l s)
    ∧ (b = false → (postSafe b t c m i l s).stream
        = s.stream ++ [render s ⟨c, m, i, l, t, (s.threads t).nextSeq⟩])
    ∧ ((post t c m i l s).reported
          = s.reported ++ [⟨c, m, i, l, t, (s.threads t).nextSeq⟩]
        ∨ ((post t c m i l s).threads t).list
          = (s.threads t).list ++ [⟨c, m, i, l, t, (s.threads t).nextSeq⟩]) := by
  refine ⟨?_, ?_, ?_⟩
  · intro hb
    rw [hb]
    rfl
  · intro hb
    rw [hb]
    rfl
  · cases hm : (s.threads t).marks with
    | nil => exact Or.inl (post_unmarked_reported t c m i l s hm)
    | cons p rest =>
        right
        rw [post_marked_threads t c m i l s p rest hm]

/-- Witness for C8: with bookkeeping working postSafe is Post, and with
bookkeeping failing the rendering of the posted record reaches the default
stream. -/
theorem post_never_fails_witness :
    postSafe true 0 1 "c8" none loc0 sys0 = post 0 1 "c8" none loc0 sys0
    ∧ (postSafe false 0 1 "c8" none loc0 sys0).stream
        = sys0.stream ++ [render sys0 ⟨1, "c8", none, loc0, 0, 0⟩] := by
  have h1 := post_never_fails true 0 1 "c8" none loc0 sys0
  have h2 := post_never_fails false 0 1 "c8" none loc0 sys0
  exact ⟨h1.1 rfl, h2.2.1 rfl⟩

/-- C9: retrieving the contextual payload as a type succeeds exactly when
the record holds a payload of exactly that type tag; with no payload, or a
payload of another type, retrieval fails rather than coercing. -/
theorem getInfo_checked (r : ErrorRecord) (ty v : Nat) :
    (getInfo r ty = some v ↔ r.info = some ⟨ty, v⟩)
    ∧ (r.info = none → getInfo r ty = none)
    ∧ (∀ p : Payload, r.info = some p → p.ty ≠ ty → getInfo r ty = none) := by
  refine ⟨?_, ?_, ?_⟩
  · cases hi : r.info with
    | none => simp [getInfo, hi]
    | some p =>
        obtain ⟨pt, pv⟩ := p
        by_cases hp : pt = ty
        · subst hp
          simp [getInfo, hi]
        · simp [getInfo, hi, hp]
  · intro h
    simp [getInfo, h]
  · intro p hp hne
    simp [getInfo, hp, hne]

/-- Witness for C9: a record holding a payload of type tag 2 and value 5
yields 5 when asked for type 2 and nothing when asked for type 3. -/
theorem getInfo_checked_witness :
    getInfo ⟨1, "i", some ⟨2, 5⟩, loc0, 0, 0⟩ 2 = some 5
    ∧ getInfo ⟨1, "i", some ⟨2, 5⟩, loc0, 0, 0⟩ 3 = none := by
  refine ⟨?_, ?_⟩
  · exact (getInfo_checked ⟨1, "i", some ⟨2, 5⟩, loc0, 0, 0⟩ 2 5).1.mpr rfl
  · exact (getInfo_checked ⟨1, "i", some ⟨2, 5⟩, loc0, 0, 0⟩ 3 5).2.2
      ⟨2, 5⟩ rfl (by decide)

end TfErrorModel

namespace Mpl2

/-- C10: not_ is exactly std::negation: the value of not_ applied to a trait
is the boolean negation of the trait's value, and double application of
not_ restores the original value. -/
theorem not_value_is_negation (F : TypeTrait) :
    (not_ F).value = !F.value
    ∧ not_ F = std_negation F
    ∧ (not_ (not_ F)).value = F.value := by
  refine ⟨rfl, rfl, ?_⟩
  cases F with
  | mk v => cases v <;> rfl

end Mpl2
